import Mathlib

/-!
Verification development for the discord-async-rs client library.

Each section embeds one component of the source tree as executable Lean
definitions (hash maps become association lists, machine integers become
Nat with explicit `% 2^w` where wrapping matters, fallible code returns
Option/Except) and proves the spec-level claims about it.
-/

namespace DiscordAsync

/-- Snowflake (`src/lib.rs`, `src/types.rs`): 64-bit opaque id, modelled as Nat. -/
abbrev Snowflake := Nat

/-! ### Association-list model of std::collections::HashMap

The projections only use `insert`, `remove` and `get`; an association list
without duplicate keys models those exactly. -/

/-- HashMap::insert - replaces the value at the key, or appends the binding. -/
def mapInsert {α : Type} (k : Snowflake) (v : α) : List (Snowflake × α) → List (Snowflake × α)
  | [] => [(k, v)]
  | (k', v') :: rest => if k' = k then (k, v) :: rest else (k', v') :: mapInsert k v rest

/-- HashMap::remove - drops every binding of the key (unique anyway). -/
def mapRemove {α : Type} (k : Snowflake) (m : List (Snowflake × α)) : List (Snowflake × α) :=
  m.filter (fun p => p.1 ≠ k)

/-- HashMap::get. -/
def mapLookup {α : Type} (k : Snowflake) (m : List (Snowflake × α)) : Option α :=
  (m.find? (fun p => p.1 = k)).map (fun p => p.2)

theorem mapLookup_mapRemove_self {α : Type} (k : Snowflake) (m : List (Snowflake × α)) :
    mapLookup k (mapRemove k m) = none := by
  have h : (mapRemove k m).find? (fun p => p.1 = k) = none := by
    rw [List.find?_eq_none]
    intro p hp
    have hpm := List.of_mem_filter hp
    simp at hpm ⊢
    exact hpm
  simp [mapLookup, h]

/-! ### Guild state projection (`src/guild.rs`)

`State` is the per-guild model: channel, role and member maps in the
stateful variant, single cached records in the stateless variant. -/

/-- User record (`src/types.rs`). -/
structure User where
  id : Snowflake
  username : String
  discriminator : String
  avatar : Option String
  bot : Bool
  system : Bool
deriving DecidableEq

/-- Member record (`src/types.rs`); `joined_at`/`premium_since` timestamps
are modelled as milliseconds, the `roles` HashSet as a list of role ids. -/
structure Member where
  user : User
  nickname : Option String
  roles : List Snowflake
  hoisted_role : Option Snowflake
  joined_at : Nat
  premium_since : Option Nat
  mute : Bool
  deaf : Bool
deriving DecidableEq

/-- Role record (`src/types.rs`). -/
structure Role where
  id : Snowflake
  name : String
  color : Nat
  hoist : Bool
  position : Nat
  permissions : Nat
  managed : Bool
  mentionable : Bool
deriving DecidableEq

/-- Channel record (`src/types.rs`); only the id participates in any claim
under study, the remaining payload fields are irrelevant to map behaviour. -/
structure Channel where
  id : Snowflake
deriving DecidableEq

/-- The `State` enum of `src/guild.rs`. -/
inductive GuildState where
  | stateful (channels : List (Snowflake × Channel)) (roles : List (Snowflake × Role))
      (members : List (Snowflake × Member))
  | stateless (channel : Option Channel) (role : Option Role) (member : Option Member)
deriving DecidableEq

/-- `State::is_stateful`. -/
def GuildState.is_stateful : GuildState → Bool
  | .stateful _ _ _ => true
  | .stateless _ _ _ => false

/-- `State::role` - lookup of a role by id. -/
def GuildState.role : GuildState → Snowflake → Option Role
  | .stateful _ rs _, id => mapLookup id rs
  | .stateless _ r _, id =>
    match r with
    | some role => if role.id = id then some role else none
    | none => none

/-- `State::member`. -/
def GuildState.member : GuildState → Snowflake → Option Member
  | .stateful _ _ ms, id => mapLookup id ms
  | .stateless _ _ m, id =>
    match m with
    | some member => if member.user.id = id then some member else none
    | none => none

/-- `State::delete_role` - `roles.remove(&id)` in the stateful arm, no-op
otherwise; returns the removed role alongside the updated state. -/
def GuildState.delete_role : GuildState → Snowflake → Option Role × GuildState
  | .stateful cs rs ms, id => (mapLookup id rs, .stateful cs (mapRemove id rs) ms)
  | st, _ => (none, st)

/-- `GuildRoleDelete` dispatch payload (`src/protocol/event.rs`). -/
structure GuildRoleDelete where
  guild_id : Snowflake
  role_id : Snowflake
deriving DecidableEq

/-- The `GuildRoleDelete` arm of `Guild::next` (`src/guild.rs`): the state
change is exactly `state.delete_role(rd.role_id)`. -/
def applyRoleDelete (st : GuildState) (rd : GuildRoleDelete) : GuildState :=
  (st.delete_role rd.role_id).2

/-- The member-map view of a state: the members map when stateful, the
single cached member (as a one-element list) when stateless. -/
def GuildState.membersView : GuildState → List Member
  | .stateful _ _ ms => ms.map (fun p => p.2)
  | .stateless _ _ m => m.toList

/-- `Guild::new` / `Guild::update` loading a `GuildCreate` payload into a
fresh stateful state: channels, roles and members inserted keyed by id.
The protocol-to-types record conversions are field renames and are applied
to already-converted records here. -/
def guildLoad (channels : List Channel) (roles : List Role) (members : List Member) :
    GuildState :=
  .stateful
    (channels.foldl (fun m c => mapInsert c.id c m) [])
    (roles.foldl (fun m r => mapInsert r.id r m) [])
    (members.foldl (fun m mem => mapInsert mem.user.id mem m) [])

/-- The claim of C1, stated as the spec states it: after any role-delete
event on any projection state, the role id is gone from the role map and
from every member's role set. -/
def roleDeleteCascadeClaim : Prop :=
  ∀ (st : GuildState) (rd : GuildRoleDelete),
    (applyRoleDelete st rd).role rd.role_id = none ∧
    ∀ m ∈ (applyRoleDelete st rd).membersView, rd.role_id ∉ m.roles

/-- A concrete reachable state: a guild loaded from a GuildCreate carrying
one role (id 1) and one member (id 10) whose role set contains role 1. -/
def c1Role : Role :=
  { id := 1, name := "admin", color := 0, hoist := false, position := 0,
    permissions := 0, managed := false, mentionable := false }

def c1Member : Member :=
  { user := { id := 10, username := "alice", discriminator := "0001",
              avatar := none, bot := false, system := false },
    nickname := none, roles := [1], hoisted_role := none,
    joined_at := 0, premium_since := none, mute := false, deaf := false }

def c1State : GuildState := guildLoad [] [c1Role] [c1Member]

/-- C1 counterexample: the cascade claim is false - deleting role 1 from a
guild whose member 10 holds role 1 leaves the role id in the member's role
set (`State::delete_role` only touches the role map). -/
theorem c1_role_delete_counterexample : ¬ roleDeleteCascadeClaim := by
  intro h
  have h2 := (h c1State ⟨5, 1⟩).2
  have hm : c1Member ∈ (applyRoleDelete c1State ⟨5, 1⟩).membersView := by decide
  have := h2 c1Member hm
  simp [c1Member] at this

/-- C1 amended: after a role-delete event the role id is absent from the
role map of a stateful projection, but the member records are untouched -
a member that held the role keeps its id (no cascade is implemented). -/
theorem c1_role_delete_amended (st : GuildState) (rd : GuildRoleDelete) :
    (st.is_stateful = true → (applyRoleDelete st rd).role rd.role_id = none) ∧
    (applyRoleDelete st rd).membersView = st.membersView := by
  cases st with
  | stateful cs rs ms =>
    refine ⟨fun _ => ?_, rfl⟩
    simpa [applyRoleDelete, GuildState.delete_role, GuildState.role] using
      mapLookup_mapRemove_self rd.role_id rs
  | stateless c r m => exact ⟨fun h => by simp [GuildState.is_stateful] at h, rfl⟩

/-- C1 witness: the amended theorem applied at the concrete guild. -/
theorem c1_role_delete_amended_witness :
    (applyRoleDelete c1State ⟨5, 1⟩).role 1 = none ∧
    (applyRoleDelete c1State ⟨5, 1⟩).membersView = c1State.membersView :=
  ⟨(c1_role_delete_amended c1State ⟨5, 1⟩).1 (by decide),
   (c1_role_delete_amended c1State ⟨5, 1⟩).2⟩

/-! ### Gateway sequence counter (`src/discord.rs`)

`read` stores `p.sequence` into the shared atomic whenever an inbound
frame carries a non-null `s`; `write` emits `Command::heartbeat` with the
current value of that atomic. The value after a list of inbound frames is
therefore a fold that overwrites on `some` and keeps the old value on
`none`. -/

/-- One `read` iteration's effect on the shared sequence atomic:
`if let Some(seq) = p.sequence { sequence.store(seq) }`. -/
def storeSequence (st : Nat) (frame : Option Nat) : Nat :=
  match frame with
  | some n => n
  | none => st

/-- Value of the sequence atomic after the reader has processed the given
inbound frames (each represented by its optional `s` field); the atomic
starts at 0 for a session. -/
def sequenceAfter (frames : List (Option Nat)) : Nat :=
  frames.foldl storeSequence 0

/-- The payload of a heartbeat the writer emits at this point:
`Command::heartbeat(sequence.load(..))`. -/
def heartbeatPayload (frames : List (Option Nat)) : Nat :=
  sequenceAfter frames

/-- Maximum sequence number seen on any inbound frame (0 when none) - the
quantity the claim says the heartbeat carries. -/
def maxSequenceSeen (frames : List (Option Nat)) : Nat :=
  frames.foldl (fun m f => match f with | some n => max m n | none => m) 0

/-- The claim of C2 as stated: every heartbeat payload equals the maximum
sequence seen so far, for every sequence of inbound frames. -/
def heartbeatMaxClaim : Prop :=
  ∀ frames : List (Option Nat), heartbeatPayload frames = maxSequenceSeen frames

theorem storeSequence_foldl (frames : List (Option Nat)) (a : Nat) :
    frames.foldl storeSequence a = (frames.filterMap id).foldl (fun _ n => n) a := by
  induction frames generalizing a with
  | nil => rfl
  | cons f rest ih => cases f <;> simp [storeSequence, ih]

theorem maxSeen_foldl (frames : List (Option Nat)) (a : Nat) :
    frames.foldl (fun m f => match f with | some n => max m n | none => m) a =
      (frames.filterMap id).foldl max a := by
  induction frames generalizing a with
  | nil => rfl
  | cons f rest ih => cases f <;> simp [ih]

theorem foldl_overwrite_getLastD (l : List Nat) (a : Nat) :
    l.foldl (fun _ n => n) a = l.getLastD a := by
  induction l generalizing a with
  | nil => rfl
  | cons x xs ih => rw [List.foldl_cons, List.getLastD_cons]; exact ih x

theorem foldl_overwrite_eq_max (l : List Nat) (a : Nat)
    (hc : List.Pairwise (· ≤ ·) l) (ha : ∀ x ∈ l, a ≤ x) :
    l.foldl (fun _ n => n) a = l.foldl max a := by
  induction l generalizing a with
  | nil => rfl
  | cons x xs ih =>
    have hax : a ≤ x := ha x (by simp)
    have : max a x = x := by omega
    rw [List.foldl_cons, List.foldl_cons, this]
    exact ih x hc.of_cons (fun y hy => List.rel_of_pairwise_cons hc hy)

/-- C2 counterexample: the claim as stated fails - frames with sequences
5 then 3 leave 3 in the atomic, so the heartbeat payload is 3 while the
maximum seen is 5 (the reader stores the latest, not the maximum). -/
theorem c2_heartbeat_max_counterexample : ¬ heartbeatMaxClaim := by
  intro h
  have := h [some 5, some 3]
  simp [heartbeatPayload, sequenceAfter, maxSequenceSeen, storeSequence] at this

/-- C2 amended: the heartbeat payload equals the most recent non-null
sequence seen (0 before any); when the inbound sequence values arrive in
non-decreasing order - as the server guarantees - that value is the
maximum seen so far. -/
theorem c2_heartbeat_latest (frames : List (Option Nat)) :
    heartbeatPayload frames = (frames.filterMap id).getLastD 0 ∧
    (List.Pairwise (· ≤ ·) (frames.filterMap id) →
      heartbeatPayload frames = maxSequenceSeen frames) := by
  constructor
  · rw [heartbeatPayload, sequenceAfter, storeSequence_foldl, foldl_overwrite_getLastD]
  · intro hmono
    rw [heartbeatPayload, sequenceAfter, storeSequence_foldl, maxSequenceSeen, maxSeen_foldl]
    exact foldl_overwrite_eq_max _ 0 hmono (fun x _ => Nat.zero_le x)

/-- C2 witness: the amended theorem evaluated on the frames
[s=1, null, s=4]: payload 4, which is also the maximum. -/
theorem c2_heartbeat_latest_witness :
    heartbeatPayload [some 1, none, some 4] = ([some 1, none, some 4].filterMap id).getLastD 0 ∧
    heartbeatPayload [some 1, none, some 4] = maxSequenceSeen [some 1, none, some 4] :=
  ⟨(c2_heartbeat_latest [some 1, none, some 4]).1,
   (c2_heartbeat_latest [some 1, none, some 4]).2 (by decide)⟩

/-! ### Voice UDP transport (`src/voice/socket.rs`)

The `write` task owns a 512-byte packet buffer initialised with the RTP
magic `0x80 0x78` at offsets 0-1 and the big-endian ssrc at offsets 8-12.
Per voice frame it writes the big-endian sequence at 2-4 and timestamp at
4-8, copies the first 12 buffer bytes into a 24-byte nonce whose tail
stays zero, encrypts the frame, splices the ciphertext in at offset 12 and
sends the first `12 + ciphertext_len` bytes. The XSalsa20-Poly1305 cipher
is modelled as an abstract `encrypt` function from key, nonce and
plaintext to ciphertext-with-tag. -/

/-- Big-endian u16 byte encoding (byteorder WriteBytesExt). -/
def be16 (n : Nat) : List Nat := [n / 2 ^ 8 % 256, n % 256]

/-- Big-endian u32 byte encoding. -/
def be32 (n : Nat) : List Nat :=
  [n / 2 ^ 24 % 256, n / 2 ^ 16 % 256, n / 2 ^ 8 % 256, n % 256]

@[simp] theorem be16_length (n : Nat) : (be16 n).length = 2 := rfl

@[simp] theorem be32_length (n : Nat) : (be32 n).length = 4 := rfl

/-- Write of `bytes` into `buf` at offset `i` (a cursor write into a
mutable byte slice). -/
def writeAt (buf : List Nat) (i : Nat) (bytes : List Nat) : List Nat :=
  buf.take i ++ bytes ++ buf.drop (i + bytes.length)

/-- Contiguous slice `buf[i .. i+n)`. -/
def listSeg (buf : List Nat) (i n : Nat) : List Nat := (buf.drop i).take n

/-- A 32-byte secret key, as delivered to the write task. -/
abbrev SecretKey := List Nat

/-- The `Control` messages of the socket write task. -/
inductive SockControl where
  | secretKey (key : SecretKey)
  | voiceFrame (frame : List Nat)
deriving DecidableEq

def SockControl.isSecretKey : SockControl → Bool
  | .secretKey _ => true
  | .voiceFrame _ => false

/-- Observable output of one send: the nonce handed to the cipher and the
datagram handed to `send_to`. -/
structure SentPacket where
  nonce : List Nat
  datagram : List Nat
deriving DecidableEq

/-- Local state of the `write` loop: sequence (u16), timestamp (u32),
optional cipher key, and the reused packet buffer. -/
structure WriteState where
  sequence : Nat
  timestamp : Nat
  cipher : Option SecretKey
  packet : List Nat
deriving DecidableEq

/-- Buffer state before the loop: 512 zero bytes with `0x80 0x78` written
at offset 0 and the big-endian ssrc at offset 8. -/
def initWriteState (ssrc : Nat) : WriteState :=
  { sequence := 0, timestamp := 0, cipher := none,
    packet := writeAt (writeAt (List.replicate 512 0) 0 [0x80, 0x78]) 8 (be32 ssrc) }

/-- One iteration of the `write` loop on a control message. -/
def writeStep (encrypt : SecretKey → List Nat → List Nat → List Nat)
    (st : WriteState) : SockControl → WriteState × Option SentPacket
  | .secretKey key => ({ st with cipher := some key }, none)
  | .voiceFrame frame =>
    match st.cipher with
    | none => (st, none)
    | some key =>
      let p1 := writeAt st.packet 2 (be16 st.sequence)
      let p2 := writeAt p1 4 (be32 st.timestamp)
      let nonce := p2.take 12 ++ List.replicate 12 0
      let buf := encrypt key nonce frame
      let p3 := writeAt p2 12 buf
      let sent := p3.take (buf.length + 12)
      ({ sequence := (st.sequence + 1) % 2 ^ 16,
         timestamp := (st.timestamp + 960) % 2 ^ 32,
         cipher := some key, packet := p3 },
       some { nonce := nonce, datagram := sent })

/-- The `write` loop run over a list of control messages from a given
state, collecting the sent packets. -/
def writeRunFrom (encrypt : SecretKey → List Nat → List Nat → List Nat)
    (st : WriteState) : List SockControl → WriteState × List SentPacket
  | [] => (st, [])
  | c :: cs =>
    let s1 := writeStep encrypt st c
    let s2 := writeRunFrom encrypt s1.1 cs
    (s2.1, s1.2.toList ++ s2.2)

/-- The `write` loop run from the initial socket state. -/
def writeRun (encrypt : SecretKey → List Nat → List Nat → List Nat)
    (ssrc : Nat) (controls : List SockControl) : WriteState × List SentPacket :=
  writeRunFrom encrypt (initWriteState ssrc) controls

/-- The 12-byte RTP-style header of a voice packet. -/
def rtpHeader (seq ts ssrc : Nat) : List Nat :=
  [0x80, 0x78] ++ be16 seq ++ be32 ts ++ be32 ssrc

@[simp] theorem rtpHeader_length (s t u : Nat) : (rtpHeader s t u).length = 12 := rfl
theorem take_append_self (l₁ l₂ : List Nat) (n : Nat) (h : n = l₁.length) :
    (l₁ ++ l₂).take n = l₁ := by
  subst h
  simp

theorem drop_append_self (l₁ l₂ : List Nat) (n : Nat) (h : n = l₁.length) :
    (l₁ ++ l₂).drop n = l₂ := by
  subst h
  simp

/-- Invariant of the write loop: the packet buffer consists of the two
magic bytes, a 6-byte scratch region (the sequence and timestamp slots),
the big-endian ssrc at offset 8, and a tail; the counters are in range. -/
def WriteInv (ssrc : Nat) (st : WriteState) : Prop :=
  (∃ mid tail, st.packet = [0x80, 0x78] ++ mid ++ be32 ssrc ++ tail ∧ mid.length = 6) ∧
    st.sequence < 2 ^ 16 ∧ st.timestamp < 2 ^ 32

set_option maxRecDepth 4000 in
theorem initWriteState_packet (ssrc : Nat) :
    (initWriteState ssrc).packet =
      [0x80, 0x78] ++ List.replicate 6 0 ++ be32 ssrc ++ List.replicate 500 0 := by
  show writeAt (writeAt (List.replicate 512 0) 0 [0x80, 0x78]) 8 (be32 ssrc) = _
  have h1 : writeAt (List.replicate 512 0) 0 [0x80, 0x78] =
      [0x80, 0x78] ++ List.replicate 510 0 := by
    rw [writeAt]
    simp
  rw [h1, writeAt]
  rw [List.take_append_eq_append_take, List.drop_append_eq_append_drop]
  rw [List.take_of_length_le (by simp), List.drop_eq_nil_of_le (by simp)]
  simp

theorem writeInv_init (ssrc : Nat) : WriteInv ssrc (initWriteState ssrc) :=
  ⟨⟨List.replicate 6 0, List.replicate 500 0, initWriteState_packet ssrc, by simp⟩,
    (by decide : (0 : Nat) < 2 ^ 16), (by decide : (0 : Nat) < 2 ^ 32)⟩

/-- After the sequence and timestamp writes, the packet buffer is exactly
the RTP header followed by the invariant's tail. -/
theorem packet_after_writes (ssrc : Nat) (st : WriteState)
    (mid tail : List Nat) (hpk : st.packet = [0x80, 0x78] ++ mid ++ be32 ssrc ++ tail)
    (hmid : mid.length = 6) :
    writeAt (writeAt st.packet 2 (be16 st.sequence)) 4 (be32 st.timestamp) =
      rtpHeader st.sequence st.timestamp ssrc ++ tail := by
  have e1 : writeAt st.packet 2 (be16 st.sequence) =
      [0x80, 0x78] ++ be16 st.sequence ++ mid.drop 2 ++ be32 ssrc ++ tail := by
    rw [writeAt, hpk]
    simp [List.take_append_eq_append_take, List.drop_append_eq_append_drop,
      List.take_of_length_le, List.drop_eq_nil_of_le, hmid]
  rw [e1, writeAt]
  have hmd : (mid.drop 2).length = 4 := by
    rw [List.length_drop, hmid]
  simp [List.take_append_eq_append_take, List.drop_append_eq_append_drop,
    List.take_of_length_le, List.drop_eq_nil_of_le, hmd, rtpHeader]

/-- The voice-frame arm of the step in closed form: under the invariant
and with a cipher installed, the nonce handed to the cipher is the RTP
header followed by 12 zero bytes, the datagram is the header followed by
the ciphertext, the counters advance by 1 and 960 with wrapping, and the
buffer keeps the header-plus-ciphertext prefix. -/
theorem writeStep_voiceFrame (encrypt : SecretKey → List Nat → List Nat → List Nat)
    (ssrc : Nat) (st : WriteState) (key : SecretKey) (frame : List Nat)
    (hinv : WriteInv ssrc st) (hkey : st.cipher = some key) :
    ∃ rest,
      writeStep encrypt st (.voiceFrame frame) =
        (⟨(st.sequence + 1) % 2 ^ 16, (st.timestamp + 960) % 2 ^ 32, some key,
          rtpHeader st.sequence st.timestamp ssrc ++
            encrypt key (rtpHeader st.sequence st.timestamp ssrc ++ List.replicate 12 0)
              frame ++ rest⟩,
         some
           { nonce := rtpHeader st.sequence st.timestamp ssrc ++ List.replicate 12 0,
             datagram := rtpHeader st.sequence st.timestamp ssrc ++
               encrypt key (rtpHeader st.sequence st.timestamp ssrc ++ List.replicate 12 0)
                 frame }) := by
  obtain ⟨⟨mid, tail, hpk, hmid⟩, hs, ht⟩ := hinv
  have hsh := packet_after_writes ssrc st mid tail hpk hmid
  set hdr := rtpHeader st.sequence st.timestamp ssrc with hhdr
  set ct := encrypt key (hdr ++ List.replicate 12 0) frame with hct
  refine ⟨tail.drop ct.length, ?_⟩
  have hlen : hdr.length = 12 := by rw [hhdr]; simp
  have htake12 : (hdr ++ tail).take 12 = hdr :=
    take_append_self hdr tail 12 hlen.symm
  have hdrop : (hdr ++ tail).drop (12 + ct.length) = tail.drop ct.length := by
    rw [List.drop_append_eq_append_drop]
    rw [List.drop_eq_nil_of_le (by omega), hlen]
    simp
  have hw3 : writeAt (hdr ++ tail) 12 ct = hdr ++ ct ++ tail.drop ct.length := by
    rw [writeAt, htake12, hdrop]
  have hsent : (hdr ++ ct ++ tail.drop ct.length).take (ct.length + 12) = hdr ++ ct := by
    rw [List.append_assoc, List.take_append_eq_append_take,
      List.take_of_length_le (by omega), hlen]
    simp [List.take_append_eq_append_take]
  simp only [writeStep, hkey]
  rw [hsh, htake12]
  rw [← hct, hw3, hsent]

/-- The invariant is preserved by every step. -/
theorem writeInv_step (encrypt : SecretKey → List Nat → List Nat → List Nat)
    (ssrc : Nat) (st : WriteState) (c : SockControl) (hinv : WriteInv ssrc st) :
    WriteInv ssrc (writeStep encrypt st c).1 := by
  obtain ⟨⟨mid, tail, hpk, hmid⟩, hs, ht⟩ := hinv
  cases c with
  | secretKey key => exact ⟨⟨mid, tail, hpk, hmid⟩, hs, ht⟩
  | voiceFrame frame =>
    cases hc : st.cipher with
    | none =>
      simp only [writeStep, hc]
      exact ⟨⟨mid, tail, hpk, hmid⟩, hs, ht⟩
    | some key =>
      obtain ⟨rest, hstep⟩ :=
        writeStep_voiceFrame encrypt ssrc st key frame ⟨⟨mid, tail, hpk, hmid⟩, hs, ht⟩ hc
      rw [hstep]
      refine ⟨⟨be16 st.sequence ++ be32 st.timestamp,
        encrypt key (rtpHeader st.sequence st.timestamp ssrc ++ List.replicate 12 0)
          frame ++ rest, ?_, by simp⟩, Nat.mod_lt _ (by decide), Nat.mod_lt _ (by decide)⟩
      simp [rtpHeader]

/-- Closed form of the n-th packet of any run under the invariant: it
carries the header for sequence `(seq0 + n) mod 2^16` and timestamp
`(ts0 + 960 n) mod 2^32`, its nonce is that header followed by 12 zero
bytes, and its datagram is the header followed by the ciphertext of some
frame under that nonce and some delivered key. -/
theorem writeRunFrom_get (encrypt : SecretKey → List Nat → List Nat → List Nat)
    (ssrc : Nat) (st : WriteState) (controls : List SockControl)
    (hinv : WriteInv ssrc st) (n : Nat) (sp : SentPacket)
    (hsp : ((writeRunFrom encrypt st controls).2)[n]? = some sp) :
    ∃ key frame,
      sp = { nonce := rtpHeader ((st.sequence + n) % 2 ^ 16)
                ((st.timestamp + 960 * n) % 2 ^ 32) ssrc ++ List.replicate 12 0,
             datagram := rtpHeader ((st.sequence + n) % 2 ^ 16)
                 ((st.timestamp + 960 * n) % 2 ^ 32) ssrc ++
               encrypt key
                 (rtpHeader ((st.sequence + n) % 2 ^ 16)
                     ((st.timestamp + 960 * n) % 2 ^ 32) ssrc ++
                   List.replicate 12 0) frame } := by
  induction controls generalizing st n with
  | nil => simp [writeRunFrom] at hsp
  | cons c cs ih =>
    have hinv' := writeInv_step encrypt ssrc st c hinv
    cases c with
    | secretKey key =>
      have hstep : writeStep encrypt st (.secretKey key) =
          ({ st with cipher := some key }, none) := rfl
      rw [writeRunFrom] at hsp
      rw [hstep] at hsp
      simp only [Option.toList_none, List.nil_append] at hsp
      exact ih { st with cipher := some key } (by rw [hstep] at hinv'; exact hinv') n hsp
    | voiceFrame frame =>
      cases hc : st.cipher with
      | none =>
        have hstep : writeStep encrypt st (.voiceFrame frame) = (st, none) := by
          simp [writeStep, hc]
        rw [writeRunFrom] at hsp
        rw [hstep] at hsp
        simp only [Option.toList_none, List.nil_append] at hsp
        exact ih st hinv n hsp
      | some key =>
        obtain ⟨rest, hstep⟩ := writeStep_voiceFrame encrypt ssrc st key frame hinv hc
        rw [writeRunFrom] at hsp
        rw [hstep] at hsp
        simp only [Option.toList_some, List.cons_append] at hsp
        cases n with
        | zero =>
          rw [List.getElem?_cons_zero] at hsp
          have hmod16 : (st.sequence + 0) % 2 ^ 16 = st.sequence := by
            have := hinv.2.1; omega
          have hmod32 : (st.timestamp + 960 * 0) % 2 ^ 32 = st.timestamp := by
            have := hinv.2.2; omega
          refine ⟨key, frame, ?_⟩
          rw [hmod16, hmod32]
          exact (Option.some.injEq _ _).mp hsp |>.symm
        | succ m =>
          rw [List.getElem?_cons_succ] at hsp
          have hinv2 : WriteInv ssrc
              ⟨(st.sequence + 1) % 2 ^ 16, (st.timestamp + 960) % 2 ^ 32, some key,
                rtpHeader st.sequence st.timestamp ssrc ++
                  encrypt key (rtpHeader st.sequence st.timestamp ssrc ++
                    List.replicate 12 0) frame ++ rest⟩ := by
            rw [hstep] at hinv'
            exact hinv'
          obtain ⟨key', frame', hval⟩ := ih _ hinv2 m (by simpa using hsp)
          refine ⟨key', frame', ?_⟩
          have hseqm : ((st.sequence + 1) % 2 ^ 16 + m) % 2 ^ 16 =
              (st.sequence + (m + 1)) % 2 ^ 16 := by
            rw [Nat.mod_add_mod]
            ring_nf
          have htsm : ((st.timestamp + 960) % 2 ^ 32 + 960 * m) % 2 ^ 32 =
              (st.timestamp + 960 * (m + 1)) % 2 ^ 32 := by
            rw [Nat.mod_add_mod]
            ring_nf
          rw [hval]
          rw [hseqm, htsm]
/-- Byte slices 2-3 and 4-7 of a header-plus-ciphertext datagram are the
big-endian sequence and timestamp. -/
theorem datagram_seg (s t u : Nat) (ct : List Nat) :
    listSeg (rtpHeader s t u ++ ct) 2 2 = be16 s ∧
    listSeg (rtpHeader s t u ++ ct) 4 4 = be32 t := by
  constructor <;>
    simp [listSeg, rtpHeader, List.drop_append_eq_append_drop,
      List.take_append_eq_append_take, List.take_of_length_le, List.drop_eq_nil_of_le]

/-- C3: every frame the voice transport sends is encrypted under a
24-byte nonce equal to the packet's 12-byte RTP header (0x80, 0x78,
big-endian sequence, big-endian timestamp, big-endian ssrc) followed by
12 zero bytes, and the datagram handed to the socket is that header
followed by the ciphertext-with-tag of the opus frame; the cipher is
modelled as an abstract encrypt function. -/
theorem c3_nonce_and_datagram
    (encrypt : SecretKey → List Nat → List Nat → List Nat) (ssrc : Nat)
    (controls : List SockControl) (sp : SentPacket)
    (hsp : sp ∈ (writeRun encrypt ssrc controls).2) :
    ∃ s t key frame, s < 2 ^ 16 ∧ t < 2 ^ 32 ∧
      sp.nonce = rtpHeader s t ssrc ++ List.replicate 12 0 ∧
      sp.nonce.length = 24 ∧
      sp.datagram = rtpHeader s t ssrc ++ encrypt key sp.nonce frame := by
  obtain ⟨n, hn⟩ := List.mem_iff_getElem?.mp hsp
  obtain ⟨key, frame, hval⟩ :=
    writeRunFrom_get encrypt ssrc (initWriteState ssrc) controls (writeInv_init ssrc) n sp hn
  refine ⟨((initWriteState ssrc).sequence + n) % 2 ^ 16,
    ((initWriteState ssrc).timestamp + 960 * n) % 2 ^ 32, key, frame,
    Nat.mod_lt _ (by decide), Nat.mod_lt _ (by decide), ?_, ?_, ?_⟩
  · rw [hval]
  · rw [hval]; simp
  · rw [hval]

def constEncrypt : SecretKey → List Nat → List Nat → List Nat :=
  fun _ _ p => p ++ List.replicate 16 0

def c3Controls : List SockControl :=
  [.secretKey (List.replicate 32 0), .voiceFrame [1, 2, 3]]

def c3Packet : SentPacket :=
  { nonce := rtpHeader 0 0 1 ++ List.replicate 12 0,
    datagram := rtpHeader 0 0 1 ++ ([1, 2, 3] ++ List.replicate 16 0) }

set_option maxRecDepth 8000 in
/-- C3 witness: the theorem applied to a one-frame run under a dummy
cipher. -/
theorem c3_nonce_and_datagram_witness :
    ∃ s t key frame, s < 2 ^ 16 ∧ t < 2 ^ 32 ∧
      c3Packet.nonce = rtpHeader s t 1 ++ List.replicate 12 0 ∧
      c3Packet.nonce.length = 24 ∧
      c3Packet.datagram = rtpHeader s t 1 ++ constEncrypt key c3Packet.nonce frame :=
  c3_nonce_and_datagram constEncrypt 1 c3Controls c3Packet (by decide)

/-- C4: in any run from a state satisfying the buffer invariant (in
particular the initial state, whose counters are zero), the n-th packet
sent carries sequence (seq0 + n) mod 2^16 in datagram bytes 2-3 and
timestamp (ts0 + 960 n) mod 2^32 in bytes 4-7: each send advances the
sequence by exactly 1 wrapping at 2^16 and the timestamp by exactly 960
wrapping at 2^32. -/
theorem c4_counter_progression
    (encrypt : SecretKey → List Nat → List Nat → List Nat) (ssrc : Nat)
    (st : WriteState) (controls : List SockControl) (hinv : WriteInv ssrc st)
    (n : Nat) (sp : SentPacket)
    (hsp : ((writeRunFrom encrypt st controls).2)[n]? = some sp) :
    listSeg sp.datagram 2 2 = be16 ((st.sequence + n) % 2 ^ 16) ∧
    listSeg sp.datagram 4 4 = be32 ((st.timestamp + 960 * n) % 2 ^ 32) := by
  obtain ⟨key, frame, hval⟩ := writeRunFrom_get encrypt ssrc st controls hinv n sp hsp
  rw [hval]
  exact datagram_seg _ _ _ _

def c4Controls : List SockControl :=
  [.secretKey (List.replicate 32 0), .voiceFrame [1, 2, 3], .voiceFrame [4, 5]]

set_option maxRecDepth 8000 in
/-- C4 witness: the theorem applied to the second packet of a two-frame
run from the initial state: sequence 1, timestamp 960. -/
theorem c4_counter_progression_witness :
    listSeg { nonce := rtpHeader 1 960 1 ++ List.replicate 12 0,
              datagram := rtpHeader 1 960 1 ++ ([4, 5] ++ List.replicate 16 0) :
              SentPacket }.datagram 2 2 = be16 ((0 + 1) % 2 ^ 16) ∧
    listSeg { nonce := rtpHeader 1 960 1 ++ List.replicate 12 0,
              datagram := rtpHeader 1 960 1 ++ ([4, 5] ++ List.replicate 16 0) :
              SentPacket }.datagram 4 4 = be32 ((0 + 960 * 1) % 2 ^ 32) :=
  c4_counter_progression constEncrypt 1 (initWriteState 1) c4Controls
    (writeInv_init 1) 1 _ (by decide)

/-- A run whose state has no cipher and whose controls carry no key sends
nothing and leaves the state untouched. -/
theorem writeRunFrom_no_key (encrypt : SecretKey → List Nat → List Nat → List Nat)
    (st : WriteState) (hc : st.cipher = none) (controls : List SockControl)
    (h : ∀ c ∈ controls, c.isSecretKey = false) :
    writeRunFrom encrypt st controls = (st, []) := by
  induction controls with
  | nil => rfl
  | cons c cs ih =>
    cases c with
    | secretKey key =>
      have := h (.secretKey key) (by simp)
      simp [SockControl.isSecretKey] at this
    | voiceFrame frame =>
      have hstep : writeStep encrypt st (.voiceFrame frame) = (st, none) := by
        simp [writeStep, hc]
      rw [writeRunFrom, hstep]
      have := ih (fun c hmem => h c (by simp [hmem]))
      simp [this]

/-- C10: voice frames submitted before the 32-byte secret key arrives are
silently discarded - a key-free run sends no datagram and leaves the
counters at 0 - and in every run the first datagram actually transmitted
carries sequence 0 and timestamp 0. -/
theorem c10_frames_before_key
    (encrypt : SecretKey → List Nat → List Nat → List Nat) (ssrc : Nat) :
    (∀ controls : List SockControl, (∀ c ∈ controls, c.isSecretKey = false) →
      (writeRun encrypt ssrc controls).2 = [] ∧
      (writeRun encrypt ssrc controls).1 = initWriteState ssrc) ∧
    (∀ (controls : List SockControl) (sp : SentPacket),
      ((writeRun encrypt ssrc controls).2)[0]? = some sp →
      listSeg sp.datagram 2 2 = be16 0 ∧ listSeg sp.datagram 4 4 = be32 0) := by
  constructor
  · intro controls h
    have := writeRunFrom_no_key encrypt (initWriteState ssrc) rfl controls h
    rw [writeRun, this]
    exact ⟨rfl, rfl⟩
  · intro controls sp hsp
    obtain ⟨key, frame, hval⟩ := writeRunFrom_get encrypt ssrc (initWriteState ssrc)
      controls (writeInv_init ssrc) 0 sp hsp
    rw [hval]
    have h0 : ((initWriteState ssrc).sequence + 0) % 2 ^ 16 = 0 := by
      show (0 + 0) % 2 ^ 16 = 0
      decide
    have h1 : ((initWriteState ssrc).timestamp + 960 * 0) % 2 ^ 32 = 0 := by
      show (0 + 960 * 0) % 2 ^ 32 = 0
      decide
    rw [h0, h1]
    exact datagram_seg _ _ _ _

set_option maxRecDepth 8000 in
/-- C10 witness: a key-free run drops its frames, and the first packet of
a keyed run carries sequence 0 and timestamp 0. -/
theorem c10_frames_before_key_witness :
    ((writeRun constEncrypt 1 [.voiceFrame [9, 9]]).2 = [] ∧
      (writeRun constEncrypt 1 [.voiceFrame [9, 9]]).1 = initWriteState 1) ∧
    (listSeg { nonce := rtpHeader 0 0 1 ++ List.replicate 12 0,
               datagram := rtpHeader 0 0 1 ++ ([1, 2, 3] ++ List.replicate 16 0) :
               SentPacket }.datagram 2 2 = be16 0 ∧
      listSeg { nonce := rtpHeader 0 0 1 ++ List.replicate 12 0,
                datagram := rtpHeader 0 0 1 ++ ([1, 2, 3] ++ List.replicate 16 0) :
                SentPacket }.datagram 4 4 = be32 0) :=
  ⟨(c10_frames_before_key constEncrypt 1).1 [.voiceFrame [9, 9]] (by decide),
   (c10_frames_before_key constEncrypt 1).2 c3Controls _ (by decide)⟩

/-! ### Gateway wire envelope decoding (`src/protocol/event.rs`)

`Payload::deserialize` walks the JSON object's entries in document order,
recording `t`, `s` and `op`, and on the `d` key dispatches on the pair
`(op, t)`. The named dispatch payloads (Ready, GuildCreate, ...) are kept
here as the raw `d` value: their field-by-field struct deserialization is
orthogonal to the envelope dispatch under study. -/

/-- A JSON value. -/
inductive Json where
  | null
  | bool (b : Bool)
  | num (n : Nat)
  | str (s : String)
  | arr (items : List Json)
  | obj (fields : List (String × Json))

/-- The `Event` enum (the source spells HeartbeatAck `HearbeatAck`). -/
inductive ProtocolEvent where
  | hello (heartbeat_interval : Nat)
  | ready (d : Json)
  | resumed
  | invalidSession (resumable : Bool)
  | heartbeatAck
  | guildCreate (d : Json)
  | messageCreate (d : Json)
  | messageDelete (d : Json)
  | messageDeleteBulk (d : Json)
  | messageUpdate (d : Json)
  | guildMemberAdd (d : Json)
  | guildMemberRemove (d : Json)
  | guildMemberUpdate (d : Json)
  | guildRoleCreate (d : Json)
  | guildRoleDelete (d : Json)
  | guildRoleUpdate (d : Json)
  | channelCreate (d : Json)
  | channelDelete (d : Json)
  | channelUpdate (d : Json)
  | messageReactionAdd (d : Json)
  | messageReactionRemove (d : Json)
  | messageReactionRemoveAll (d : Json)
  | messageReactionRemoveEmoji (d : Json)
  | unknown (t : String)

/-- `Payload`: optional sequence plus the decoded event. -/
structure Payload where
  sequence : Option Nat
  event : ProtocolEvent

/-- serde decode of Option<String> (the `t` field): null becomes none. -/
def decodeOptString : Json → Option (Option String)
  | .null => some none
  | .str s => some (some s)
  | _ => none

/-- serde decode of Option<u64> (the `s` field). -/
def decodeOptNat : Json → Option (Option Nat)
  | .null => some none
  | .num n => some (some n)
  | _ => none

/-- serde decode of u8 (the `op` field). -/
def decodeU8 : Json → Option Nat
  | .num n => if n < 256 then some n else none
  | _ => none

/-- Derived deserializer of `Hello`: an object with exactly one
`heartbeat_interval` binding holding a number. -/
def decodeHello : Json → Option Nat
  | .obj fields =>
    match fields.filter (fun p => p.1 = "heartbeat_interval") with
    | [(_, .num n)] => some n
    | _ => none
  | _ => none

/-- `InvalidSession` is a serde-transparent bool. -/
def decodeInvalidSession : Json → Option Bool
  | .bool b => some b
  | _ => none

/-- The inner match on the dispatch name for `(op = 0, t = Some(_))`;
first literal match wins, anything else is preserved as Unknown(t). -/
def dispatchNamed (tname : String) (d : Json) : ProtocolEvent :=
  if tname = "READY" then .ready d
  else if tname = "RESUMED" then .resumed
  else if tname = "GUILD_CREATE" then .guildCreate d
  else if tname = "MESSAGE_CREATE" then .messageCreate d
  else if tname = "MESSAGE_DELETE" then .messageDelete d
  else if tname = "MESSAGE_DELETE_BULK" then .messageDeleteBulk d
  else if tname = "MESSAGE_UPDATE" then .messageUpdate d
  else if tname = "GUILD_MEMBER_ADD" then .guildMemberAdd d
  else if tname = "GUILD_MEMBER_REMOVE" then .guildMemberRemove d
  else if tname = "GUILD_MEMBER_UPDATE" then .guildMemberUpdate d
  else if tname = "GUILD_ROLE_CREATE" then .guildRoleCreate d
  else if tname = "GUILD_ROLE_DELETE" then .guildRoleDelete d
  else if tname = "GUILD_ROLE_UPDATE" then .guildRoleUpdate d
  else if tname = "CHANNEL_CREATE" then .channelCreate d
  else if tname = "CHANNEL_DELETE" then .channelDelete d
  else if tname = "CHANNEL_UPDATE" then .channelUpdate d
  else if tname = "MESSAGE_REACTION_ADD" then .messageReactionAdd d
  else if tname = "MESSAGE_REACTION_REMOVE" then .messageReactionRemove d
  else if tname = "MESSAGE_REACTION_REMOVE_ALL" then .messageReactionRemoveAll d
  else if tname = "MESSAGE_REACTION_REMOVE_EMOJI" then .messageReactionRemoveEmoji d
  else .unknown tname

/-- The match on `(op, t.as_deref())` at the `d` key: 9 to InvalidSession,
10 to Hello, 11 to HeartbeatAck, 0 with t set to a named dispatch, 0
without t is a missing-field error, and any other op formats the opcode
into Unknown. -/
def dispatchEvent (op : Nat) (t : Option String) (d : Json) : Option ProtocolEvent :=
  if op = 9 then (decodeInvalidSession d).map ProtocolEvent.invalidSession
  else if op = 10 then (decodeHello d).map ProtocolEvent.hello
  else if op = 11 then some .heartbeatAck
  else if op = 0 then
    match t with
    | some tname => some (dispatchNamed tname d)
    | none => none
  else some (.unknown (toString op))

/-- State of `PayloadVisitor::visit_map` while walking the entries. -/
structure VisitorState where
  t : Option String
  sequence : Option Nat
  op : Option Nat
  payload : Option Payload

/-- The body of `visit_map`: entries are processed in document order;
duplicate `t`/`s`/`op`/`d` keys are errors, `d` before `op` is an error,
unknown keys are skipped, and the final payload is required. -/
def visitFields : VisitorState → List (String × Json) → Option Payload
  | st, [] => st.payload
  | st, (key, value) :: rest =>
    if key = "t" then
      if st.t.isSome then none
      else
        match decodeOptString value with
        | some tv => visitFields { st with t := tv } rest
        | none => none
    else if key = "s" then
      if st.sequence.isSome then none
      else
        match decodeOptNat value with
        | some sv => visitFields { st with sequence := sv } rest
        | none => none
    else if key = "op" then
      if st.op.isSome then none
      else
        match decodeU8 value with
        | some ov => visitFields { st with op := some ov } rest
        | none => none
    else if key = "d" then
      if st.payload.isSome then none
      else
        match st.op with
        | none => none
        | some ov =>
          match dispatchEvent ov st.t value with
          | some ev => visitFields { st with payload := some ⟨st.sequence, ev⟩ } rest
          | none => none
    else visitFields st rest

/-- `Payload::deserialize` over the ordered entries of the wire object. -/
def decodePayload (entries : List (String × Json)) : Option Payload :=
  visitFields ⟨none, none, none, none⟩ entries

/-- The spec's dispatch table for named events, for the refinement part of
the claim. -/
def dispatchNamePairs : List (String × (Json → ProtocolEvent)) :=
  [("READY", ProtocolEvent.ready), ("RESUMED", fun _ => .resumed),
   ("GUILD_CREATE", ProtocolEvent.guildCreate),
   ("MESSAGE_CREATE", ProtocolEvent.messageCreate),
   ("MESSAGE_DELETE", ProtocolEvent.messageDelete),
   ("MESSAGE_DELETE_BULK", ProtocolEvent.messageDeleteBulk),
   ("MESSAGE_UPDATE", ProtocolEvent.messageUpdate),
   ("GUILD_MEMBER_ADD", ProtocolEvent.guildMemberAdd),
   ("GUILD_MEMBER_REMOVE", ProtocolEvent.guildMemberRemove),
   ("GUILD_MEMBER_UPDATE", ProtocolEvent.guildMemberUpdate),
   ("GUILD_ROLE_CREATE", ProtocolEvent.guildRoleCreate),
   ("GUILD_ROLE_DELETE", ProtocolEvent.guildRoleDelete),
   ("GUILD_ROLE_UPDATE", ProtocolEvent.guildRoleUpdate),
   ("CHANNEL_CREATE", ProtocolEvent.channelCreate),
   ("CHANNEL_DELETE", ProtocolEvent.channelDelete),
   ("CHANNEL_UPDATE", ProtocolEvent.channelUpdate),
   ("MESSAGE_REACTION_ADD", ProtocolEvent.messageReactionAdd),
   ("MESSAGE_REACTION_REMOVE", ProtocolEvent.messageReactionRemove),
   ("MESSAGE_REACTION_REMOVE_ALL", ProtocolEvent.messageReactionRemoveAll),
   ("MESSAGE_REACTION_REMOVE_EMOJI", ProtocolEvent.messageReactionRemoveEmoji)]

/-- The `s` field as it appears on the wire. -/
def jsonOfOptNat : Option Nat → Json
  | none => .null
  | some n => .num n

/-- C5: decoding dispatches on (op, t): op=10 yields Hello with its
heartbeat_interval, op=11 yields HeartbeatAck, op=9 yields InvalidSession
with its bool payload, op=0 with t set yields the named dispatch event
(unknown names preserved as Unknown(t)), any other op yields Unknown(op);
in particular op 99 decodes to Unknown("99"). -/
theorem c5_envelope_dispatch :
    (∀ (s : Option Nat) (n : Nat),
      decodePayload [("t", .null), ("s", jsonOfOptNat s), ("op", .num 10),
        ("d", .obj [("heartbeat_interval", .num n)])] = some ⟨s, .hello n⟩) ∧
    (∀ (s : Option Nat) (d : Json),
      decodePayload [("t", .null), ("s", jsonOfOptNat s), ("op", .num 11), ("d", d)] =
        some ⟨s, .heartbeatAck⟩) ∧
    (∀ (s : Option Nat) (b : Bool),
      decodePayload [("t", .null), ("s", jsonOfOptNat s), ("op", .num 9), ("d", .bool b)] =
        some ⟨s, .invalidSession b⟩) ∧
    (∀ (s : Option Nat) (d : Json) (p : String × (Json → ProtocolEvent)),
      p ∈ dispatchNamePairs →
      decodePayload [("t", .str p.1), ("s", jsonOfOptNat s), ("op", .num 0), ("d", d)] =
        some ⟨s, p.2 d⟩) ∧
    (∀ (s : Option Nat) (d : Json) (name : String),
      name ∉ dispatchNamePairs.map (fun p => p.1) →
      decodePayload [("t", .str name), ("s", jsonOfOptNat s), ("op", .num 0), ("d", d)] =
        some ⟨s, .unknown name⟩) ∧
    (∀ (s : Option Nat) (d : Json) (o : Nat), o < 256 → o ∉ ([0, 9, 10, 11] : List Nat) →
      decodePayload [("t", .null), ("s", jsonOfOptNat s), ("op", .num o), ("d", d)] =
        some ⟨s, .unknown (toString o)⟩) ∧
    decodePayload [("op", .num 99), ("d", .obj [("heartbeat_interval", .num 123456)])] =
      some ⟨none, .unknown "99"⟩ := by
  refine ⟨?_, ?_, ?_, ?_, ?_, ?_, ?_⟩
  · intro s n
    cases s <;> rfl
  · intro s d
    cases s <;> rfl
  · intro s b
    cases s <;> rfl
  · intro s d p hp
    fin_cases hp <;> cases s <;> rfl
  · intro s d name hn
    simp only [dispatchNamePairs, List.map_cons, List.map_nil, List.mem_cons,
      List.not_mem_nil, or_false, not_or] at hn
    obtain ⟨h1, h2, h3, h4, h5, h6, h7, h8, h9, h10, h11, h12, h13, h14, h15, h16, h17,
      h18, h19, h20⟩ := hn
    cases s <;>
      simp [decodePayload, visitFields, decodeOptString, decodeOptNat, dispatchEvent,
        decodeU8, dispatchNamed, jsonOfOptNat, h1, h2, h3, h4, h5, h6, h7, h8, h9, h10,
        h11, h12, h13, h14, h15, h16, h17, h18, h19, h20]
  · intro s d o ho hno
    simp only [List.mem_cons, List.not_mem_nil, or_false, not_or] at hno
    obtain ⟨hn0, hn9, hn10, hn11⟩ := hno
    cases s <;>
      simp [decodePayload, visitFields, decodeOptString, decodeOptNat, decodeU8,
        dispatchEvent, jsonOfOptNat, ho, hn0, hn9, hn10, hn11]
  · rfl

/-- C5 witness: each part applied at concrete inputs. -/
theorem c5_envelope_dispatch_witness :
    decodePayload [("t", .null), ("s", jsonOfOptNat (some 7)), ("op", .num 10),
        ("d", .obj [("heartbeat_interval", .num 123456)])] =
      some ⟨some 7, .hello 123456⟩ ∧
    decodePayload [("t", .str "GUILD_CREATE"), ("s", jsonOfOptNat none), ("op", .num 0),
        ("d", .obj [])] = some ⟨none, .guildCreate (.obj [])⟩ ∧
    decodePayload [("t", .str "NOT_A_REAL_EVENT"), ("s", jsonOfOptNat none), ("op", .num 0),
        ("d", .null)] = some ⟨none, .unknown "NOT_A_REAL_EVENT"⟩ ∧
    decodePayload [("t", .null), ("s", jsonOfOptNat none), ("op", .num 3), ("d", .null)] =
      some ⟨none, .unknown "3"⟩ :=
  ⟨c5_envelope_dispatch.1 (some 7) 123456,
   c5_envelope_dispatch.2.2.2.1 none (.obj []) ("GUILD_CREATE", ProtocolEvent.guildCreate)
     (by simp [dispatchNamePairs]),
   c5_envelope_dispatch.2.2.2.2.1 none .null "NOT_A_REAL_EVENT" (by decide),
   c5_envelope_dispatch.2.2.2.2.2.1 none .null 3 (by decide) (by decide)⟩

/-! ### Voice IP discovery (`src/voice/socket.rs`, `Socket::run`)

The run sends a 74-byte request from a 128-byte buffer (type=1, len=70,
the big-endian ssrc, zeros), then `recv_from` overlays the reply on the
same buffer. Validation reads the type before checking the length, so
bytes beyond a short reply come from the stale request. -/

/-- The 128-byte buffer right after the discovery request was written. -/
def discoveryBuf (ssrc : Nat) : List Nat :=
  writeAt (List.replicate 128 0) 0 (be16 1 ++ be16 70 ++ be32 ssrc)

/-- Buffer contents after `recv_from` overlays a reply at offset 0. -/
def recvOverlay (ssrc : Nat) (reply : List Nat) : List Nat :=
  writeAt (discoveryBuf ssrc) 0 reply

/-- Big-endian u16 read at offset i. -/
def readBe16At (buf : List Nat) (i : Nat) : Nat :=
  match listSeg buf i 2 with
  | [b0, b1] => b0 * 256 + b1
  | _ => 0

/-- str::from_utf8 for the all-ASCII case; non-ASCII bytes are rejected
(the source accepts multibyte UTF-8 too, but such an address string never
parses as a socket address in the step that follows). -/
def asciiString : List Nat → Option String
  | [] => some ""
  | b :: rest =>
    if b < 128 then (asciiString rest).map (fun s => String.mk (Char.ofNat b :: s.data))
    else none

/-- The discovery-reply handling of `Socket::run`: reject unless the type
field is 2 and the reply length is at least 74; the IP text is the run of
bytes at offsets 8..72 up to the first NUL, the port the big-endian u16 at
72..74. The final `"ip:port".parse::<SocketAddr>()` is modelled as the
(ip, port) pair itself. -/
def parseDiscovery (ssrc : Nat) (reply : List Nat) : Except String (String × Nat) :=
  if readBe16At (recvOverlay ssrc reply) 0 ≠ 2 then .error "Unexpected packet type"
  else if reply.length < 74 then .error "Unexpected packet"
  else
    match asciiString ((listSeg (recvOverlay ssrc reply) 8 64).takeWhile (fun v => v ≠ 0)) with
    | some ip => .ok (ip, readBe16At (recvOverlay ssrc reply) 72)
    | none => .error "Invalid ip"

/-- Slices that lie inside the overlaid reply read from the reply. -/
theorem listSeg_overlay (base reply : List Nat) (i n : Nat) (h : i + n ≤ reply.length) :
    listSeg (writeAt base 0 reply) i n = listSeg reply i n := by
  rw [writeAt]
  simp only [List.take_zero, List.nil_append, Nat.zero_add]
  rw [listSeg, listSeg, List.drop_append_eq_append_drop, List.take_append_eq_append_take]
  have h1 : i - reply.length = 0 := by omega
  have h2 : n - (reply.drop i).length = 0 := by
    rw [List.length_drop]
    omega
  rw [h1, h2]
  simp

theorem readBe16At_overlay (base reply : List Nat) (i : Nat) (h : i + 2 ≤ reply.length) :
    readBe16At (writeAt base 0 reply) i = readBe16At reply i := by
  rw [readBe16At, readBe16At, listSeg_overlay base reply i 2 h]

/-- The sample reply of the spec scenario: type=2, len=70 echo, ssrc,
ASCII "203.0.113.7" then NULs in the 64-byte field, port bytes 0x1F 0x90. -/
def c6Reply : List Nat :=
  be16 2 ++ be16 70 ++ be32 5 ++
    ([50, 48, 51, 46, 48, 46, 49, 49, 51, 46, 55] ++ List.replicate 53 0) ++
    [0x1F, 0x90]

/-- C6: a reply is accepted only if its type field is 2 and its length is
at least 74; an accepted reply yields the NUL-terminated ASCII string at
offsets 8..72 as IP and the big-endian u16 at 72..73 as port; the spec's
sample reply yields 203.0.113.7 : 8080. -/
theorem c6_ip_discovery :
    (∀ (ssrc : Nat) (reply : List Nat) (res : String × Nat),
      parseDiscovery ssrc reply = .ok res →
        readBe16At reply 0 = 2 ∧ 74 ≤ reply.length ∧
        asciiString ((listSeg reply 8 64).takeWhile (fun v => v ≠ 0)) = some res.1 ∧
        res.2 = readBe16At reply 72) ∧
    parseDiscovery 5 c6Reply = .ok ("203.0.113.7", 8080) := by
  constructor
  · intro ssrc reply res h
    rw [parseDiscovery] at h
    by_cases hty : readBe16At (recvOverlay ssrc reply) 0 ≠ 2
    · rw [if_pos hty] at h
      exact absurd h (by simp)
    rw [if_neg hty] at h
    by_cases hlen : reply.length < 74
    · rw [if_pos hlen] at h
      exact absurd h (by simp)
    rw [if_neg hlen] at h
    push_neg at hty hlen
    have hseg : listSeg (recvOverlay ssrc reply) 8 64 = listSeg reply 8 64 :=
      listSeg_overlay _ reply 8 64 (by omega)
    have hty2 : readBe16At reply 0 = 2 := by
      rw [← readBe16At_overlay (discoveryBuf ssrc) reply 0 (by omega)]
      exact hty
    have hport : readBe16At (recvOverlay ssrc reply) 72 = readBe16At reply 72 :=
      readBe16At_overlay (discoveryBuf ssrc) reply 72 (by omega)
    rw [hseg, hport] at h
    cases ha : asciiString ((listSeg reply 8 64).takeWhile (fun v => v ≠ 0)) with
    | none =>
      rw [ha] at h
      exact absurd h (by simp)
    | some ip =>
      rw [ha] at h
      have h2 : (ip, readBe16At reply 72) = res := by simpa using h
      refine ⟨hty2, hlen, ?_, ?_⟩
      · rw [← h2]
      · rw [← h2]
  · rfl

set_option maxRecDepth 8000 in
/-- C6 witness: the acceptance direction applied to the sample reply. -/
theorem c6_ip_discovery_witness :
    readBe16At c6Reply 0 = 2 ∧ 74 ≤ c6Reply.length ∧
    asciiString ((listSeg c6Reply 8 64).takeWhile (fun v => v ≠ 0)) =
      some ("203.0.113.7", 8080).1 ∧
    ("203.0.113.7", (8080 : Nat)).2 = readBe16At c6Reply 72 :=
  c6_ip_discovery.1 5 c6Reply ("203.0.113.7", 8080) (by rfl)

/-! ### Supervisor reconnect broadcast (`src/discord.rs`, `start_discord`)

After a connection error the newest supervisor loops over every registry
entry: `for (_, send) in guilds.values_mut() { send_or_drop(send,
GuildEvent::Offline) }` - the availability flag is discarded by the `_`
pattern and left unchanged. -/

/-- `GuildEvent` (`src/guild.rs`). -/
inductive GuildEvent where
  | offline
  | online
  | event (e : ProtocolEvent)

/-- A bounded guild mailbox (capacity 16) as the sender sees it: whether
the receiving projection is still alive, and the queued events. -/
structure Mailbox where
  receiverAlive : Bool
  queue : List GuildEvent

/-- `send_or_drop`: try_send on the optional sender; a disconnected
receiver clears the sender slot, a full queue drops the event. -/
def send_or_drop (send : Option Mailbox) (item : GuildEvent) : Option Mailbox :=
  match send with
  | none => none
  | some mb =>
    if mb.receiverAlive = false then none
    else if 16 ≤ mb.queue.length then some mb
    else some { mb with queue := mb.queue ++ [item] }

/-- The registry: guild id to (available, optional mailbox sender). -/
abbrev GuildRegistry := List (Snowflake × Bool × Option Mailbox)

/-- The Offline broadcast of the reconnect path, applied to each entry. -/
def offlineBroadcast (guilds : GuildRegistry) : GuildRegistry :=
  guilds.map (fun g => (g.1, g.2.1, send_or_drop g.2.2 .offline))

/-- The claim of C7 as stated: a guild whose registry entry was not
available receives no Offline event - its mailbox is left untouched. -/
def offlineOnlyAvailableClaim : Prop :=
  ∀ (guilds : GuildRegistry) (i : Nat) (g g2 : Snowflake × Bool × Option Mailbox),
    guilds[i]? = some g → (offlineBroadcast guilds)[i]? = some g2 →
    g.2.1 = false → g2.2.2 = g.2.2

/-- C7 counterexample: the claim is false - an unavailable guild with a
live, empty mailbox receives the Offline event on reconnect, because the
broadcast loop ignores the availability flag. -/
theorem c7_offline_counterexample : ¬ offlineOnlyAvailableClaim := by
  intro h
  have := h [(7, false, some ⟨true, []⟩)] 0 (7, false, some ⟨true, []⟩)
    (7, false, some ⟨true, [.offline]⟩) rfl rfl rfl
  simp [Mailbox.mk.injEq] at this

/-- C7 amended: on reconnect the supervisor sends Offline to every
registry entry's mailbox via send_or_drop, regardless of the availability
flag, which it leaves unchanged; in particular every guild with a
present, live, non-full mailbox - available or not - receives Offline. -/
theorem c7_offline_broadcast_all (guilds : GuildRegistry) (i : Nat)
    (g : Snowflake × Bool × Option Mailbox) (hg : guilds[i]? = some g) :
    (offlineBroadcast guilds)[i]? = some (g.1, g.2.1, send_or_drop g.2.2 .offline) ∧
    (∀ mb, g.2.2 = some mb → mb.receiverAlive = true → mb.queue.length < 16 →
      send_or_drop g.2.2 .offline = some ⟨true, mb.queue ++ [.offline]⟩) := by
  constructor
  · rw [offlineBroadcast, List.getElem?_map, hg]
    rfl
  · intro mb hmb halive hroom
    rw [hmb, send_or_drop]
    rw [halive]
    simp only [Bool.true_eq_false, if_false]
    rw [if_neg (by omega)]

/-- C7 witness: the amended theorem applied to a registry with one
unavailable guild holding a live empty mailbox. -/
theorem c7_offline_broadcast_all_witness :
    (offlineBroadcast [(7, false, some ⟨true, []⟩)])[0]? =
      some (7, false, send_or_drop (some ⟨true, []⟩) .offline) ∧
    send_or_drop (some (⟨true, []⟩ : Mailbox)) .offline = some ⟨true, [.offline]⟩ :=
  ⟨(c7_offline_broadcast_all [(7, false, some ⟨true, []⟩)] 0 (7, false, some ⟨true, []⟩)
      rfl).1,
   (c7_offline_broadcast_all [(7, false, some ⟨true, []⟩)] 0 (7, false, some ⟨true, []⟩)
      rfl).2 ⟨true, []⟩ rfl rfl (by simp)⟩

/-! ### Voice control plane (`src/voice/connection.rs`)

`Connection::run` selects over the controller, the voice-gateway event
stream and the socket event stream; the latter two are `pending()` until
the corresponding child has been spawned, so their events can only arrive
once the `gwOpen`/`sockOpen` flags are set. After each processed item the
loop's state match spawns the gateway (Idle with complete credentials) or
opens the socket (Connected without one). Sends on the gateway and socket
controllers are recorded as observable outputs. -/

/-- The only supported encryption mode (`ENCRYPTION_MODE`). -/
def encryptionMode : String := "xsalsa20_poly1305"

/-- Voice Ready payload. Modelled from the spec: the voice gateway Ready
(a `discord_types::voice` type not under src/) carries ssrc, ip, port and
the supported encryption `modes`. -/
structure VoiceReady where
  ssrc : Nat
  ip : String
  port : Nat
  modes : List String

/-- Voice gateway events seen by `Connection::event`. Modelled from the
spec: the `discord_types::voice::Event` enum is not under src/; Ready,
Resumed and SessionDescription (carrying `mode` and the 32-byte
`secret_key`) are the arms the connection inspects, everything else is
grouped as `other`. -/
inductive VoiceGwEvent where
  | ready (r : VoiceReady)
  | resumed
  | sessionDescription (mode : String) (secret_key : List Nat)
  | other

/-- Modelled from the spec: `is_ready_kind` (not under src/) holds for
the handshake-completing events Ready and Resumed. -/
def VoiceGwEvent.is_ready_kind : VoiceGwEvent → Bool
  | .ready _ => true
  | .resumed => true
  | _ => false

/-- A socket address, as (ip, port). -/
abbrev Addr := String × Nat

/-- Commands sent on the voice gateway controller
(`src/voice/gateway.rs`). -/
inductive VoiceGwCommand where
  | selectProtocol (addr : Addr) (mode : String)
  | speaking (ssrc : Nat) (priority : Bool)

def VoiceGwCommand.isSelectProtocol : VoiceGwCommand → Bool
  | .selectProtocol _ _ => true
  | _ => false

/-- The `Control` enum of the connection. -/
inductive VoiceControl where
  | session (s : String)
  | token (t : String)
  | endpoint (e : Option String)
  | voiceFrame (frame : List Nat)

/-- Socket events delivered to the connection (`socket::Event`). -/
inductive VoiceSockEvent where
  | addrDiscovery (addr : Addr)
  | voiceFrame (len : Nat)

/-- Events the connection emits to its listener. -/
inductive VoiceConnEvent where
  | connected
  | ready

/-- The `State` enum of the connection. -/
inductive VoiceConnState where
  | idle
  | connecting
  | connected
deriving DecidableEq

/-- `Connection` fields plus observable outputs. `gwOpen` stands for the
paired `gw_controller`/`gw_event_recv` being installed, `sockOpen` for
`sock_controller`/`sock_event_recv`; `gwCommands`, `sockKeys`,
`sockFrames` and `events` record sends on the gateway controller, secret
keys and frames handed to the socket controller, and listener events. -/
structure ConnModel where
  state : VoiceConnState
  session_id : Option String
  token : Option String
  endpoint : Option String
  ready : Option VoiceReady
  external_addr : Option Addr
  gwOpen : Bool
  sockOpen : Bool
  gwCommands : List VoiceGwCommand
  sockKeys : List (List Nat)
  sockFrames : List (List Nat)
  events : List VoiceConnEvent

/-- `Connection::new`. -/
def ConnModel.init : ConnModel :=
  ⟨.idle, none, none, none, none, none, false, false, [], [], [], []⟩

/-- `connect_params` is Some exactly when session, token and endpoint are
all present. -/
def ConnModel.connect_params (m : ConnModel) : Bool :=
  m.session_id.isSome && m.token.isSome && m.endpoint.isSome

/-- `Connection::ssrc`. -/
def ConnModel.ssrcOf (m : ConnModel) : Nat :=
  (m.ready.map (fun r => r.ssrc)).getD 0

/-- `Connection::control`. -/
def connControl (m : ConnModel) : VoiceControl → ConnModel
  | .session s => { m with session_id := some s }
  | .token t => { m with token := some t }
  | .endpoint e => { m with endpoint := e }
  | .voiceFrame f =>
    if m.external_addr.isNone then m
    else if m.sockOpen then { m with sockFrames := m.sockFrames ++ [f] }
    else m

/-- `Connection::event`: the returned Bool is the keep-running flag; a
Ready without the supported mode, or a SessionDescription with the wrong
mode while the socket is up, returns false (teardown). After the match,
a ready-kind event completes a Connecting state once `ready` is present. -/
def connEvent (m : ConnModel) (e : VoiceGwEvent) : ConnModel × Bool :=
  let step :=
    match e with
    | .ready r =>
      if r.modes.contains encryptionMode = false then (m, false)
      else ({ m with ready := some r }, true)
    | .sessionDescription mode key =>
      if m.sockOpen then
        if mode ≠ encryptionMode then (m, false)
        else ({ m with sockKeys := m.sockKeys ++ [key],
                       events := m.events ++ [VoiceConnEvent.ready] }, true)
      else (m, true)
    | _ => (m, true)
  let m1 := step.1
  if step.2 then
    if m1.state = VoiceConnState.connecting ∧ e.is_ready_kind = true ∧
        m1.ready.isSome = true then
      ({ m1 with
          events := m1.events ++ [VoiceConnEvent.connected]
          state := VoiceConnState.connected }, true)
    else step
  else step

/-- `Connection::socket_event`. -/
def connSockEvent (m : ConnModel) : VoiceSockEvent → ConnModel
  | .addrDiscovery addr =>
    if m.external_addr.isNone then
      if m.gwOpen then
        { m with external_addr := some addr,
                 gwCommands := m.gwCommands ++
                   [.selectProtocol addr encryptionMode, .speaking m.ssrcOf false] }
      else { m with external_addr := some addr }
    else m
  | .voiceFrame _ => m

/-- The state match at the bottom of the run loop: Idle with complete
credentials spawns the gateway; Connected without a socket opens one. -/
def connMaintain (m : ConnModel) : ConnModel :=
  match m.state with
  | .idle =>
    if m.connect_params then { m with gwOpen := true, state := .connecting } else m
  | .connected =>
    if m.sockOpen = false then { m with sockOpen := true } else m
  | .connecting => m

/-- One input to the run loop's select. -/
inductive ConnInput where
  | control (c : VoiceControl)
  | gwEvent (e : VoiceGwEvent)
  | sockEvent (e : VoiceSockEvent)

/-- One loop iteration; gateway and socket events are only deliverable
once the corresponding stream is installed (before that the select polls
`pending()`, which never yields). The Bool is the keep-running flag. -/
def connStep (m : ConnModel) : ConnInput → ConnModel × Bool
  | .control c => (connMaintain (connControl m c), true)
  | .gwEvent e =>
    if m.gwOpen then
      let r := connEvent m e
      if r.2 then (connMaintain r.1, true) else (r.1, false)
    else (m, true)
  | .sockEvent e =>
    if m.sockOpen then (connMaintain (connSockEvent m e), true) else (m, true)

/-- The run loop over a list of inputs; stops consuming at teardown. The
Bool of the result records whether the loop broke (tore down). -/
def connRun (m : ConnModel) : List ConnInput → ConnModel × Bool
  | [] => (m, false)
  | i :: rest =>
    let r := connStep m i
    if r.2 then connRun r.1 rest else (r.1, true)

/-- No SelectProtocol has been sent, no Ready recorded, no socket opened,
and the state has not reached Connected. -/
def NoSelInv (m : ConnModel) : Prop :=
  m.ready = none ∧ m.state ≠ .connected ∧ m.sockOpen = false ∧
    ∀ cmd ∈ m.gwCommands, cmd.isSelectProtocol = false

theorem noSelInv_init : NoSelInv ConnModel.init := by
  refine ⟨rfl, by decide, rfl, ?_⟩
  intro cmd hc
  simp [ConnModel.init] at hc

theorem noSelInv_maintain (m : ConnModel) (h : NoSelInv m) : NoSelInv (connMaintain m) := by
  obtain ⟨h1, h2, h3, h4⟩ := h
  rw [connMaintain]
  cases hst : m.state with
  | idle =>
    by_cases hp : m.connect_params
    · simp only [hp, if_true]
      exact ⟨h1, by simp, h3, h4⟩
    · simp only [hp, if_false]
      exact ⟨h1, h2, h3, h4⟩
  | connecting => exact ⟨h1, h2, h3, h4⟩
  | connected => exact absurd hst h2

theorem noSelInv_step (m : ConnModel) (i : ConnInput) (h : NoSelInv m)
    (hgood : ∀ r, i = .gwEvent (.ready r) → r.modes.contains encryptionMode = false) :
    NoSelInv (connStep m i).1 := by
  obtain ⟨h1, h2, h3, h4⟩ := h
  cases i with
  | control c =>
    refine noSelInv_maintain _ ?_
    cases c with
    | session s => exact ⟨h1, h2, h3, h4⟩
    | token t => exact ⟨h1, h2, h3, h4⟩
    | endpoint e => exact ⟨h1, h2, h3, h4⟩
    | voiceFrame f =>
      rw [connControl]
      by_cases ha : m.external_addr.isNone
      · simp only [ha, if_true]
        exact ⟨h1, h2, h3, h4⟩
      · simp only [ha, if_false, h3, if_false]
        exact ⟨h1, h2, h3, h4⟩
  | gwEvent e =>
    simp only [connStep]
    by_cases hgw : m.gwOpen
    case neg =>
      simp only [hgw, if_false]
      exact ⟨h1, h2, h3, h4⟩
    case pos =>
      simp only [hgw, if_true]
      have hstep1 : (connEvent m e).1 = m := by
        cases e with
        | ready r =>
          have hb := hgood r rfl
          have hb2 : encryptionMode ∉ r.modes := by simpa using hb
          simp [connEvent, hb2]
        | resumed =>
          simp [connEvent, h1, VoiceGwEvent.is_ready_kind]
        | sessionDescription mode key =>
          simp [connEvent, h3, VoiceGwEvent.is_ready_kind]
        | other =>
          simp [connEvent, VoiceGwEvent.is_ready_kind]
      by_cases hb2 : (connEvent m e).2
      · simp only [hb2, if_true, hstep1]
        exact noSelInv_maintain m ⟨h1, h2, h3, h4⟩
      · simp only [hb2, if_false, hstep1]
        exact ⟨h1, h2, h3, h4⟩
  | sockEvent e =>
    simp only [connStep]
    simp only [h3, Bool.false_eq_true, if_false]
    exact ⟨h1, h2, h3, h4⟩

theorem noSelInv_run (m : ConnModel) (inputs : List ConnInput) (h : NoSelInv m)
    (hgood : ∀ r, ConnInput.gwEvent (.ready r) ∈ inputs →
      r.modes.contains encryptionMode = false) :
    NoSelInv (connRun m inputs).1 := by
  induction inputs generalizing m with
  | nil => exact h
  | cons i rest ih =>
    rw [connRun]
    have hstep := noSelInv_step m i h
      (fun r hr => hgood r (by rw [hr]; exact List.mem_cons_self _ _))
    by_cases hc : (connStep m i).2
    · simp only [hc, if_true]
      exact ih _ hstep (fun r hr => hgood r (List.mem_cons_of_mem _ hr))
    · simp only [hc, if_false]
      exact hstep

/-- C8: if every Ready the voice gateway delivers lacks
"xsalsa20_poly1305" in its modes, the connection never sends a
SelectProtocol command, and processing such a Ready returns the teardown
flag (the run loop breaks). -/
theorem c8_reject_ready_no_select (inputs : List ConnInput)
    (hbad : ∀ r, ConnInput.gwEvent (.ready r) ∈ inputs →
      r.modes.contains encryptionMode = false) :
    (∀ cmd ∈ (connRun ConnModel.init inputs).1.gwCommands,
      cmd.isSelectProtocol = false) ∧
    (∀ (m : ConnModel) (r : VoiceReady), r.modes.contains encryptionMode = false →
      m.gwOpen = true → connStep m (.gwEvent (.ready r)) = (m, false)) := by
  constructor
  · exact (noSelInv_run ConnModel.init inputs noSelInv_init hbad).2.2.2
  · intro m r hmode hgw
    have hmode2 : encryptionMode ∉ r.modes := by simpa using hmode
    simp [connStep, hgw, connEvent, hmode2, VoiceGwEvent.is_ready_kind]

/-- C8 witness: a run that assembles credentials, opens the gateway, and
then receives a Ready offering only a different mode: teardown, and no
SelectProtocol was sent. -/
theorem c8_reject_ready_no_select_witness :
    (∀ cmd ∈ (connRun ConnModel.init
        [.control (.session "s"), .control (.token "t"),
         .control (.endpoint (some "ep")),
         .gwEvent (.ready ⟨1, "ip", 1, ["aead_aes256_gcm"]⟩)]).1.gwCommands,
      cmd.isSelectProtocol = false) ∧
    (∀ (m : ConnModel) (r : VoiceReady), r.modes.contains encryptionMode = false →
      m.gwOpen = true → connStep m (.gwEvent (.ready r)) = (m, false)) := by
  refine c8_reject_ready_no_select _ ?_
  intro r hr
  simp only [List.mem_cons, List.not_mem_nil, or_false] at hr
  rcases hr with h | h | h | h
  · exact absurd h (by simp)
  · exact absurd h (by simp)
  · exact absurd h (by simp)
  · injection h with h2
    injection h2 with h3
    subst h3
    decide

/-! ### REST error classification (`src/client.rs`) -/

/-- The JSON error body `{code, message}`. -/
structure ApiError where
  code : Nat
  message : String

/-- The `Error` enum of the REST client. -/
inductive RestError where
  | builder
  | redirect
  | timedOut
  | badRequest
  | invalidToken
  | notPermitted
  | notFound
  | rateLimited
  | gatewayUnavailable
  | response (code : Nat)
  | api (e : ApiError)
  | decode
  | other

/-- `Error::is_not_found`. -/
def RestError.is_not_found : RestError → Bool
  | .notFound => true
  | _ => false

/-- The observable part of a `reqwest::Error`: the three kind predicates
consulted first, and the optional HTTP status. -/
structure ReqwestError where
  isBuilder : Bool
  isRedirect : Bool
  isTimeout : Bool
  status : Option Nat

/-- `impl From<reqwest::Error> for Error`: builder, redirect and timeout
first, then the status-code table, else Other. -/
def errorFromReqwest (e : ReqwestError) : RestError :=
  if e.isBuilder then .builder
  else if e.isRedirect then .redirect
  else if e.isTimeout then .timedOut
  else
    match e.status with
    | some code =>
      if code = 400 then .badRequest
      else if code = 401 then .invalidToken
      else if code = 403 then .notPermitted
      else if code = 404 then .notFound
      else if code = 429 then .rateLimited
      else if code = 502 then .gatewayUnavailable
      else .response code
    | none => .other

/-- `OptionalResult::optional`: Ok wraps in Some, Err(NotFound) becomes
Ok(None), every other error is returned unchanged. -/
def optionalResult {α : Type} (r : Except RestError α) : Except RestError (Option α) :=
  match r with
  | .ok v => .ok (some v)
  | .error e => if e.is_not_found then .ok none else .error e

/-- C9: HTTP statuses classify as 400 BadRequest, 401 InvalidToken,
403 NotPermitted, 404 NotFound, 429 RateLimited, 502 GatewayUnavailable
and anything else Response(code); and the optional() adapter maps
Err(NotFound) to Ok(None), Ok(v) to Ok(Some v), and leaves every other
error unchanged. -/
theorem c9_error_classification :
    (∀ e : ReqwestError, e.isBuilder = false → e.isRedirect = false → e.isTimeout = false →
      (e.status = some 400 → errorFromReqwest e = .badRequest) ∧
      (e.status = some 401 → errorFromReqwest e = .invalidToken) ∧
      (e.status = some 403 → errorFromReqwest e = .notPermitted) ∧
      (e.status = some 404 → errorFromReqwest e = .notFound) ∧
      (e.status = some 429 → errorFromReqwest e = .rateLimited) ∧
      (e.status = some 502 → errorFromReqwest e = .gatewayUnavailable) ∧
      (∀ c : Nat, e.status = some c → c ∉ ([400, 401, 403, 404, 429, 502] : List Nat) →
        errorFromReqwest e = .response c)) ∧
    (∀ (α : Type) (v : α), optionalResult (Except.ok v) = .ok (some v)) ∧
    (optionalResult (Except.error RestError.notFound : Except RestError Nat) = .ok none) ∧
    (∀ err : RestError, err.is_not_found = false →
      optionalResult (Except.error err : Except RestError Nat) = .error err) := by
  refine ⟨?_, ?_, ?_, ?_⟩
  · intro e hb hr ht
    refine ⟨?_, ?_, ?_, ?_, ?_, ?_, ?_⟩ <;>
      first
      | (intro hs
         simp [errorFromReqwest, hb, hr, ht, hs])
      | (intro c hs hno
         simp only [List.mem_cons, List.not_mem_nil, or_false, not_or] at hno
         obtain ⟨n1, n2, n3, n4, n5, n6⟩ := hno
         simp [errorFromReqwest, hb, hr, ht, hs, n1, n2, n3, n4, n5, n6])
  · intro α v
    rfl
  · rfl
  · intro err herr
    simp [optionalResult, herr]

/-- C9 witness: the classification at status 404 and the adapter on the
three result shapes. -/
theorem c9_error_classification_witness :
    errorFromReqwest ⟨false, false, false, some 404⟩ = .notFound ∧
    errorFromReqwest ⟨false, false, false, some 500⟩ = .response 500 ∧
    optionalResult (Except.ok 3) = (.ok (some 3) : Except RestError (Option Nat)) ∧
    optionalResult (Except.error RestError.notFound : Except RestError Nat) = .ok none ∧
    optionalResult (Except.error RestError.rateLimited : Except RestError Nat) =
      .error RestError.rateLimited :=
  ⟨(c9_error_classification.1 ⟨false, false, false, some 404⟩ rfl rfl rfl).2.2.2.1 rfl,
   (c9_error_classification.1 ⟨false, false, false, some 500⟩ rfl rfl rfl).2.2.2.2.2.2
     500 rfl (by decide),
   c9_error_classification.2.1 Nat 3,
   c9_error_classification.2.2.1,
   c9_error_classification.2.2.2 RestError.rateLimited rfl⟩

end DiscordAsync
